import Mathlib

/-!
Verification of the dialog-management core `GoalOrientedBot`
(deeppavlov/skills/go_bot/go_bot.py) against its specification.

The bot's mutable per-dialog state (tracker contents, stored database
result, previous-action memory, the external network's recurrent state)
is embedded as an explicit `BotState` record threaded through every
operation.  External collaborators (tokenizer, bag-of-words encoder,
embedder, intent classifier, slot filler, tracker features, policy
network) live outside this module in the source; they are modelled from
the spec as opaque function fields of `BotConfig`.  Numeric feature
values are modelled as rationals; none of the verified properties
depend on floating-point rounding.
-/

namespace GoBot

/-- A slot-name/value mapping (Python dict of strings), as an association list. -/
abbrev Slots := List (String × String)

/-- Modelled from the spec: the template store exposes, per action, a text
pattern and a renderer `generate_text(slot_mapping) -> text`
(`deeppavlov.skills.go_bot.templates` is not under src/). -/
structure Template where
  text : String
  render : Slots → String

/-- The bot's fixed configuration: the loaded template set plus the external
collaborators.  The collaborators are modelled from the spec as opaque
functions (source: constructor arguments of `GoalOrientedBot.__init__`);
an absent optional collaborator is `none`, mirroring the source's
`hasattr(..., 'infer')` capability checks. -/
structure BotConfig where
  templates : List Template
  /-- Modelled from the spec: `templates.actions`, the ordered list of action labels. -/
  actions : List String
  use_action_mask : Bool
  /-- Modelled from the spec: `' '.join(tokenizer.infer(context)).strip()` as one function. -/
  tokenizer : String → String
  /-- Modelled from the spec: `bow_encoder.infer(tokenized, word_vocab)`. -/
  bow_encoder : String → List ℚ
  /-- Modelled from the spec: optional `embedder.infer(tokenized, mean=True)`. -/
  embedder : Option (String → List ℚ)
  /-- Modelled from the spec: optional `intent_classifier.infer(tokenized, predict_proba=True).ravel()`. -/
  intent_classifier : Option (String → List ℚ)
  /-- Modelled from the spec: optional `slot_filler.infer(tokenized)`. -/
  slot_filler : Option (String → Slots)
  /-- Modelled from the spec: `tracker.infer()`, a numeric feature vector of the state. -/
  tracker_infer : Slots → List ℚ
  /-- Modelled from the spec: `network.infer(features, mask, prob=True)`. -/
  net_infer : List ℚ → List ℚ → List ℚ
  num_epochs : Nat
  val_patience : Nat

/-- `self.n_actions = len(self.templates)` (go_bot.py line 82). -/
def BotConfig.nActions (cfg : BotConfig) : Nat := cfg.templates.length

/-- The mutable state owned by the bot: tracker contents, last database
result (`None` = not yet queried), previous-action memory, and a counter
of `network.reset_state()` calls standing for the external network's
recurrent state resets. -/
structure BotState where
  tracker : Slots
  db_result : Option Slots
  prev_action : List ℚ
  network_resets : Nat
deriving DecidableEq, Repr

/-- Key list of a slot mapping (Python `in` on a dict tests keys). -/
def slotKeys (s : Slots) : List String := s.map Prod.fst

/-- Python dict assignment `d[k] = v`: replace an existing key's value,
else append the new pair. -/
def setSlot (s : Slots) (k v : String) : Slots :=
  if (slotKeys s).contains k then
    s.map (fun kv => if kv.1 = k then (k, v) else kv)
  else s ++ [(k, v)]

/-- Modelled from the spec: `tracker.update_state(slot_mapping)` pushes the
extracted slot values into the tracker state (`DefaultTracker` is not
under src/). -/
def updateState (tracker new : Slots) : Slots :=
  new.foldl (fun acc kv => setSlot acc kv.1 kv.2) tracker

/-- `reset` (go_bot.py lines 331-335): clear tracker state, forget the
database result, zero the previous-action memory, reset the network's
recurrent state. -/
def reset (cfg : BotConfig) (s : BotState) : BotState :=
  { tracker := []
    db_result := none
    prev_action := List.replicate cfg.nActions 0
    network_resets := s.network_resets + 1 }

/-- Embedding segment of `_encode_context`: `embedder.infer(...)` when the
embedder is present, else the empty list `[]` (go_bot.py lines 109-111). -/
def embSeg (cfg : BotConfig) (tokenized : String) : List ℚ :=
  match cfg.embedder with
  | some f => f tokenized
  | none => []

/-- Intent segment of `_encode_context`: the intent classifier's probability
vector when present, else the empty list `[]` (go_bot.py lines 114-117). -/
def intentSeg (cfg : BotConfig) (tokenized : String) : List ℚ :=
  match cfg.intent_classifier with
  | some f => f tokenized
  | none => []

/-- `(d == {}) * 1.`: the flag is 1 exactly when the value is an empty dict;
`None == {}` is false in Python. -/
def dbEmptyFlag (d : Option Slots) : ℚ :=
  if d = some [] then 1 else 0

/-- Tracker contents after the slot-filler push of `_encode_context`
(go_bot.py lines 123-124): `tracker.update_state(slot_filler.infer(...))`
when a slot filler is present, else unchanged. -/
def trackerAfterSlotfill (cfg : BotConfig) (tracker : Slots) (tokenized : String) : Slots :=
  match cfg.slot_filler with
  | some f => updateState tracker (f tokenized)
  | none => tracker

/-- `_encode_context(context, db_result)` (go_bot.py lines 98-151): returns
the fused feature vector (`np.hstack` of bow, embedding, intent,
tracker-state, context-flag, and previous-action segments, in that order)
together with the state after the slot-filler side effect on the tracker.
The second context flag reads `self.db_result`, the stored value before
any update for this turn. -/
def _encode_context (cfg : BotConfig) (s : BotState) (context : String)
    (db_result : Option Slots) : List ℚ × BotState :=
  let tokenized := cfg.tokenizer context
  let tracker1 := trackerAfterSlotfill cfg s.tracker tokenized
  (cfg.bow_encoder tokenized
     ++ embSeg cfg tokenized
     ++ intentSeg cfg tokenized
     ++ cfg.tracker_infer tracker1
     ++ [dbEmptyFlag db_result, dbEmptyFlag s.db_result]
     ++ s.prev_action,
   { s with tracker := tracker1 })

/-- Python `list.index(x)`: first index of `x`, `none` for the `ValueError`
raised when `x` is absent. -/
def pyIndex (l : List String) (x : String) : Option Nat :=
  match l with
  | [] => none
  | y :: ys => if y = x then some 0 else (pyIndex ys x).map (fun i => i + 1)

/-- `_encode_response(act)` (go_bot.py lines 153-154):
`self.templates.actions.index(act)`. -/
def _encode_response (cfg : BotConfig) (act : String) : Option Nat :=
  pyIndex cfg.actions act

/-- Python list subscript `l[i]` for an `int` index: non-negative indices are
direct, indices in `[-len, 0)` wrap to `len + i`, anything else raises
`IndexError` (`none`). -/
def pyGetElem {α : Type} (l : List α) (i : Int) : Option α :=
  if 0 ≤ i then l.get? i.toNat
  else if 0 ≤ i + (l.length : Int) then l.get? (i + (l.length : Int)).toNat
  else none

/-- Slot mapping built by `_decode_response` (go_bot.py lines 163-166):
`tracker.get_state()` overlaid with the stored db_result's pairs
(database values take precedence). -/
def overlayDb (slots : Slots) (db : Option Slots) : Slots :=
  match db with
  | none => slots
  | some d => d.foldl (fun acc kv => setSlot acc kv.1 kv.2) slots

/-- `_decode_response(action_id)` (go_bot.py lines 156-168): fetch
`templates[int(action_id)]`, then render it against the tracker state
overlaid with the stored database result. -/
def _decode_response (cfg : BotConfig) (s : BotState) (action_id : Int) : Option String :=
  (pyGetElem cfg.templates action_id).map
    (fun t => t.render (overlayDb s.tracker s.db_result))

/-- Count of non-overlapping occurrences of the literal three-character
pattern `#\x7b\x7d` in a character list, scanning left to right. -/
def countBraceRefs : List Char → Nat
  | '#' :: '\x7b' :: '\x7d' :: rest => countBraceRefs rest + 1
  | _ :: rest => countBraceRefs rest
  | [] => 0

/-- `re.findall('#\x7b\x7d', tmpl)` (go_bot.py line 176): the pattern has no
capture group and no quantifier, so it matches the literal substring
`#\x7b\x7d` and every returned entity is that literal string. -/
def reFindallBrace (tmpl : String) : List String :=
  List.replicate (countBraceRefs tmpl.toList) "#\x7b\x7d"

/-- One entry of the action mask (go_bot.py lines 174-179): start at 1 and
drop to 0 when some found entity is a key neither of the tracker state nor
of `self.db_result or \x7b\x7d` (both `None` and an empty dict give `\x7b\x7d`). -/
def maskEntry (s : BotState) (t : Template) : ℚ :=
  if (reFindallBrace t.text).any
      (fun entity => !((slotKeys s.tracker).contains entity)
        && !((slotKeys (s.db_result.getD [])).contains entity))
  then 0 else 1

/-- `_action_mask()` (go_bot.py lines 170-180): all ones of length
`n_actions` when masking is disabled; otherwise one entry per template as
computed by the loop. -/
def _action_mask (cfg : BotConfig) (s : BotState) : List ℚ :=
  if cfg.use_action_mask then cfg.templates.map (maskEntry s)
  else List.replicate cfg.nActions 1

/-- `self.prev_action *= 0.; self.prev_action[action_id] = 1.` (go_bot.py
lines 196-197, 239-240, 308-309): zero the vector then set one entry;
`none` models the `IndexError` when the index is out of range. -/
def setOneHot (v : List ℚ) (i : Nat) : Option (List ℚ) :=
  if i < v.length then some ((v.map (fun _ => (0 : ℚ))).set i 1) else none

/-- The one-hot vector of length `n` that is 1 at position `i`. -/
def oneHot (n i : Nat) : List ℚ := (List.replicate n 0).set i 1

/-- One training turn's context, as read from the corpus:
`context['text']` and `context.get('db_result')`. -/
structure Turn where
  text : String
  db_result : Option Slots
deriving Repr

/-- What one iteration of the per-turn training loop appends to
`d_features`, `d_actions`, `d_masks`. -/
structure TurnLog where
  features : List ℚ
  action_id : Nat
  mask : List ℚ
deriving DecidableEq, Repr

/-- `if context.get('db_result') is not None: self.db_result = context['db_result']`
(go_bot.py lines 190-191 and 233-234, also 301-302). -/
def dbUpdate (s : BotState) (d : Option Slots) : BotState :=
  match d with
  | some r => { s with db_result := some r }
  | none => s

/-- One iteration of the per-turn training loop shared by `train_on_batch`
(go_bot.py lines 187-200) and `train` (lines 230-243): encode the context
(second context flag still reads the previously stored db_result),
conditionally replace the stored db_result, encode the ground-truth
response action, teacher-force the previous-action memory to its one-hot,
then compute the action mask. -/
def turnStep (cfg : BotConfig) (s : BotState) (t : Turn) (act : String) :
    Option (BotState × TurnLog) :=
  let fs := _encode_context cfg s t.text t.db_result
  let s2 := dbUpdate fs.2 t.db_result
  match _encode_response cfg act with
  | none => none
  | some aid =>
    match setOneHot s2.prev_action aid with
    | none => none
    | some pa =>
      let s3 := { s2 with prev_action := pa }
      some (s3, { features := fs.1, action_id := aid, mask := _action_mask cfg s3 })

/-- The `for context, response in zip(*dialog)` loop, threading the state
and accumulating one `TurnLog` per processed turn pair. -/
def runTurns (cfg : BotConfig) : BotState → List (Turn × String) →
    Option (BotState × List TurnLog)
  | s, [] => some (s, [])
  | s, (t, act) :: rest =>
    match turnStep cfg s t act with
    | none => none
    | some (s2, lg) => (runTurns cfg s2 rest).map (fun r => (r.1, lg :: r.2))

/-- Processing of one training dialog, as done identically by
`train_on_batch` (go_bot.py lines 184-202) and the epoch body of `train`
(lines 224-245): `reset()`, then the per-turn loop over
`zip(contexts, responses)`. -/
def trainDialog (cfg : BotConfig) (s : BotState) (contexts : List Turn)
    (responses : List String) : Option (BotState × List TurnLog) :=
  runTurns cfg (reset cfg s) (contexts.zip responses)

/-- `train_on_batch(batch)` (go_bot.py lines 182-202): process each dialog
of the batch in order, resetting before each. -/
def train_on_batch (cfg : BotConfig) : BotState → List (List Turn × List String) →
    Option (BotState × List (List TurnLog))
  | s, [] => some (s, [])
  | s, d :: ds =>
    match trainDialog cfg s d.1 d.2 with
    | none => none
    | some (s2, logs) => (train_on_batch cfg s2 ds).map (fun r => (r.1, logs :: r.2))

/-- One epoch's patience/best update (go_bot.py lines 276-283): strictly
worse than best decrements patience; otherwise patience returns to
`val_patience` (the inner guard only skips a redundant assignment) and
best becomes the current accuracy. -/
def patienceUpdate (vp : Nat) (p : Int) (best acc : ℚ) : Int × ℚ :=
  if acc < best then (p - 1, best)
  else (if p ≠ (vp : Int) then (vp : Int) else p, acc)

/-- Outcome of the `train` epoch loop: how many epochs ran, whether the
loop broke out of the patience check, and whether `self.save()` ran. -/
structure FitResult where
  epochs_run : Nat
  early_stop : Bool
  saved : Bool
deriving DecidableEq, Repr

/-- The epoch loop of `train` (go_bot.py lines 217-288) with the epoch's
validation action-accuracy abstracted as `accs : Nat → ℚ` (it is produced
by the external evaluation pass): per remaining epoch, apply the
patience/best update and break when `curr_patience < 1`. -/
def fitGo (vp : Nat) (accs : Nat → ℚ) : Nat → Nat → Int → ℚ → Nat × Bool
  | 0, _, _, _ => (0, false)
  | r + 1, j, p, best =>
    let pb := patienceUpdate vp p best (accs j)
    if pb.1 < 1 then (1, true)
    else
      let rest := fitGo vp accs r (j + 1) pb.1 pb.2
      (rest.1 + 1, rest.2)

/-- The early-stopping control of `train` (go_bot.py lines 214-289):
`curr_patience = val_patience`, `best_valid_accuracy = 0.`, run the epoch
loop, and call `self.save()` on the fall-through reached by both the
`break` and the exhausted-range exit. -/
def trainLoop (cfg : BotConfig) (accs : Nat → ℚ) : FitResult :=
  let r := fitGo cfg.val_patience accs cfg.num_epochs 0 (cfg.val_patience : Int) 0
  { epochs_run := r.1, early_stop := r.2, saved := true }

/-- `np.argmax` over a list: index of the first maximal element (0 on the
empty list, which `np.argmax` rejects; the network's output is non-empty). -/
def pyArgmaxAux : List ℚ → Nat → Nat → ℚ → Nat
  | [], _, bi, _ => bi
  | x :: xs, i, bi, bv =>
    if bv < x then pyArgmaxAux xs (i + 1) i x else pyArgmaxAux xs (i + 1) bi bv

/-- First index attaining the maximum, as `np.argmax` returns. -/
def pyArgmax : List ℚ → Nat
  | [] => 0
  | x :: xs => pyArgmaxAux xs 1 0 x

/-- `_infer(context, db_result)` with the default `prob=False` (go_bot.py
lines 294-311): encode the context, query the network with the features
and the mask (the mask sees the tracker updated by encoding but the
db_result not yet updated), take the arg-max, then update the stored
db_result, one-hot the previous-action memory over the prediction, and
decode the response from the updated state. -/
def _infer (cfg : BotConfig) (s : BotState) (context : String)
    (db_result : Option Slots) : Option (String × BotState) :=
  let fs := _encode_context cfg s context db_result
  let probs := cfg.net_infer fs.1 (_action_mask cfg fs.2)
  let pred_id := pyArgmax probs
  let s2 := dbUpdate fs.2 db_result
  match setOneHot s2.prev_action pred_id with
  | none => none
  | some pa =>
    let s3 := { s2 with prev_action := pa }
    (_decode_response cfg s3 (pred_id : Int)).map (fun r => (r, s3))

/-- The single-string branch of `infer(x)` (go_bot.py lines 326-328):
`self._infer(x)` with the default `db_result=None`, and no reset. -/
def inferStr (cfg : BotConfig) (s : BotState) (x : String) :
    Option (String × BotState) :=
  _infer cfg s x none

/-- One evaluation-mode turn's context: text, optional db_result, optional
ground-truth previous response action. -/
structure InferTurn where
  text : String
  db_result : Option Slots
  prev_resp_act : Option String
deriving Repr

/-- One turn of `_infer_dialog` (go_bot.py lines 316-323): teacher-force the
supplied `prev_resp_act` into the previous-action memory when present,
then run `_infer` on the turn's text and db_result. -/
def inferTurnStep (cfg : BotConfig) (s : BotState) (c : InferTurn) :
    Option (String × BotState) :=
  match c.prev_resp_act with
  | none => _infer cfg s c.text c.db_result
  | some act =>
    match _encode_response cfg act with
    | none => none
    | some aid =>
      match setOneHot s.prev_action aid with
      | none => none
      | some pa => _infer cfg { s with prev_action := pa } c.text c.db_result

/-- The turn loop of `_infer_dialog`, accumulating one response per turn. -/
def inferLoop (cfg : BotConfig) : BotState → List InferTurn →
    Option (List String × BotState)
  | s, [] => some ([], s)
  | s, c :: rest =>
    match inferTurnStep cfg s c with
    | none => none
    | some (r, s2) => (inferLoop cfg s2 rest).map (fun q => (r :: q.1, q.2))

/-- `_infer_dialog(contexts)` (go_bot.py lines 313-324): `reset()`, then the
turn loop. -/
def _infer_dialog (cfg : BotConfig) (s : BotState) (contexts : List InferTurn) :
    Option (List String × BotState) :=
  inferLoop cfg (reset cfg s) contexts

/-- `infer_on_batch(xs)` (go_bot.py lines 291-292): `_infer_dialog` on each
dialog in order. -/
def infer_on_batch (cfg : BotConfig) : BotState → List (List InferTurn) →
    Option (List (List String) × BotState)
  | s, [] => some ([], s)
  | s, d :: ds =>
    match _infer_dialog cfg s d with
    | none => none
    | some (r, s2) => (infer_on_batch cfg s2 ds).map (fun q => (r :: q.1, q.2))

/-- Split a character list into space-separated words. -/
def splitWordsAux : List Char → List Char → List (List Char)
  | [], acc => [acc.reverse]
  | ' ' :: rest, acc => acc.reverse :: splitWordsAux rest []
  | c :: rest, acc => splitWordsAux rest (c :: acc)

/-- Modelled from the spec: "inspect its template's referenced slot
placeholders" — a placeholder is written `#` followed by a slot name in
the template text.  This is the extraction the spec describes; the source
instead searches for the literal pattern `#\x7b\x7d`. -/
def specSlotRefs (tmpl : String) : List String :=
  (splitWordsAux tmpl.toList []).filterMap (fun w =>
    match w with
    | '#' :: name => if name = [] then none else some (String.mk name)
    | _ => none)

/-! ## Helper lemmas -/

lemma pyIndex_eq_none (l : List String) (x : String) :
    pyIndex l x = none ↔ x ∉ l := by
  induction l with
  | nil => simp [pyIndex]
  | cons y ys ih =>
    by_cases h : y = x
    · simp [pyIndex, h]
    · simp [pyIndex, h, Option.map_eq_none', ih, Ne.symm h]

lemma pyIndex_get (l : List String) (x : String) :
    ∀ i, pyIndex l x = some i → l.get? i = some x := by
  induction l with
  | nil => intro i h; simp [pyIndex] at h
  | cons y ys ih =>
    intro i h
    by_cases hy : y = x
    · simp [pyIndex, hy] at h
      subst h
      simp [hy]
    · simp [pyIndex, hy, Option.map_eq_some'] at h
      obtain ⟨j, hj, rfl⟩ := h
      simpa using ih j hj

lemma pyGetElem_eq_none {α : Type} (l : List α) (i : Int) :
    pyGetElem l i = none ↔
      (i < -(l.length : Int) ∨ (l.length : Int) ≤ i) := by
  unfold pyGetElem
  by_cases h0 : 0 ≤ i
  · rw [if_pos h0, List.get?_eq_none]
    have hi : ((i.toNat : Int)) = i := Int.toNat_of_nonneg h0
    omega
  · rw [if_neg h0]
    by_cases h1 : 0 ≤ i + (l.length : Int)
    · rw [if_pos h1, List.get?_eq_none]
      have hi : (((i + (l.length : Int)).toNat : Int)) = i + (l.length : Int) :=
        Int.toNat_of_nonneg h1
      omega
    · rw [if_neg h1]
      simp only [true_iff]
      omega

lemma pyGetElem_natCast {α : Type} (l : List α) (j : Nat) :
    pyGetElem l (j : Int) = l.get? j := by
  unfold pyGetElem
  rw [if_pos (by exact_mod_cast Nat.zero_le j)]
  norm_num

/-! ## The claims -/

def c1Template : Template := { text := "hello #name", render := fun _ => "hello" }

def c1Cfg : BotConfig :=
  { templates := [c1Template]
    actions := ["greet"]
    use_action_mask := true
    tokenizer := id
    bow_encoder := fun _ => []
    embedder := none
    intent_classifier := none
    slot_filler := none
    tracker_infer := fun _ => []
    net_infer := fun _ _ => []
    num_epochs := 0
    val_patience := 0 }

def c1St : BotState :=
  { tracker := [], db_result := none, prev_action := [0], network_resets := 0 }

/-- C1 (code bug): with masking enabled, the template `hello #name`
references the slot placeholder `name`, which is absent from both the
(empty) tracker state and the (absent) database result, so per the claim
the mask entry must be 0 — but `_action_mask` returns 1, because
`re.findall` is called with the literal pattern `#\x7b\x7d` (no format
argument, no capture group), which matches nothing in this template. -/
theorem c1_action_mask_literal_pattern :
    specSlotRefs c1Template.text = ["name"] ∧
    (slotKeys c1St.tracker).contains "name" = false ∧
    (slotKeys (c1St.db_result.getD [])).contains "name" = false ∧
    reFindallBrace c1Template.text = [] ∧
    _action_mask c1Cfg c1St = [1] := by
  refine ⟨rfl, rfl, rfl, rfl, ?_⟩
  decide

/-- C6: after `reset()`, the previous-action memory is the zero vector of
length `n_actions`, the stored database result is the unknown marker
`none`, the tracker state is cleared, and the external network's
recurrent-state reset has been invoked (the reset counter advances). -/
theorem c6_reset_clears_state (cfg : BotConfig) (s : BotState) :
    (reset cfg s).prev_action = List.replicate cfg.nActions 0 ∧
    (reset cfg s).db_result = none ∧
    (reset cfg s).tracker = [] ∧
    (reset cfg s).network_resets = s.network_resets + 1 :=
  ⟨rfl, rfl, rfl, rfl⟩

def c2Template : Template := { text := "bye", render := fun _ => "bye" }

def c2Cfg : BotConfig :=
  { templates := [c2Template]
    actions := ["goodbye"]
    use_action_mask := false
    tokenizer := id
    bow_encoder := fun _ => []
    embedder := none
    intent_classifier := none
    slot_filler := none
    tracker_infer := fun _ => []
    net_infer := fun _ _ => []
    num_epochs := 0
    val_patience := 0 }

def c2St : BotState :=
  { tracker := [], db_result := none, prev_action := [0], network_resets := 0 }

/-- C2 counterexample: the index `-1` lies outside the valid range
`[0, n_actions)` (here `n_actions = 1`), yet `_decode_response` does not
fail on it: Python list indexing wraps negative indices, so
`templates[-1]` silently returns the last template.  Hence "decoding
fails if and only if the index is outside `[0, n_actions)`" is false. -/
theorem c2_counterexample :
    ¬ ((_decode_response c2Cfg c2St (-1) = none) ↔
        ¬ (0 ≤ (-1 : Int) ∧ (-1 : Int) < (c2Cfg.templates.length : Int))) := by
  intro h
  have hd : _decode_response c2Cfg c2St (-1) = some "bye" := rfl
  have := h.mpr (by omega)
  rw [hd] at this
  exact Option.noConfusion this

/-- C2 (amended): encoding fails exactly when the label is not in the fixed
ordered action list; decoding an index `i` fails exactly when
`i < -n_actions` or `i ≥ n_actions` (Python list indexing wraps indices
in `[-n_actions, 0)` instead of failing); and for an index in
`[0, n_actions)` decoding returns the rendering of the template at that
index against the current slot values. -/
theorem c2_codec_failure_conditions (cfg : BotConfig) (s : BotState) :
    (∀ label, _encode_response cfg label = none ↔ label ∉ cfg.actions) ∧
    (∀ i : Int, _decode_response cfg s i = none ↔
        (i < -(cfg.templates.length : Int) ∨ (cfg.templates.length : Int) ≤ i)) ∧
    (∀ j : Nat, ∀ t, cfg.templates.get? j = some t →
        _decode_response cfg s (j : Int) =
          some (t.render (overlayDb s.tracker s.db_result))) := by
  refine ⟨fun label => pyIndex_eq_none cfg.actions label, fun i => ?_, fun j t ht => ?_⟩
  · unfold _decode_response
    rw [Option.map_eq_none']
    exact pyGetElem_eq_none cfg.templates i
  · unfold _decode_response
    rw [pyGetElem_natCast, ht]
    rfl

/-- Witness for C2's amended theorem at a concrete configuration. -/
theorem c2_codec_failure_conditions_witness :
    (_encode_response c2Cfg "hello" = none ↔ "hello" ∉ c2Cfg.actions) ∧
    (_decode_response c2Cfg c2St 5 = none ↔
        ((5 : Int) < -(c2Cfg.templates.length : Int) ∨
          (c2Cfg.templates.length : Int) ≤ 5)) ∧
    _decode_response c2Cfg c2St ((0 : Nat) : Int) =
      some (c2Template.render (overlayDb c2St.tracker c2St.db_result)) :=
  ⟨(c2_codec_failure_conditions c2Cfg c2St).1 "hello",
   (c2_codec_failure_conditions c2Cfg c2St).2.1 5,
   (c2_codec_failure_conditions c2Cfg c2St).2.2 0 c2Template rfl⟩

/-- C8: encoding a label present in the fixed action list and decoding the
resulting index recovers the template originally associated with that
label: the index points back at the label in the action list, and
decoding renders the template stored at that same index. -/
theorem c8_codec_roundtrip (cfg : BotConfig) (s : BotState)
    (hlen : cfg.actions.length = cfg.templates.length)
    (label : String) (i : Nat) (h : _encode_response cfg label = some i) :
    cfg.actions.get? i = some label ∧
    ∃ t, cfg.templates.get? i = some t ∧
      _decode_response cfg s (i : Int) =
        some (t.render (overlayDb s.tracker s.db_result)) := by
  have hget := pyIndex_get cfg.actions label i h
  refine ⟨hget, ?_⟩
  have hi : i < cfg.actions.length := by
    rw [List.get?_eq_some] at hget
    exact hget.1
  have hit : i < cfg.templates.length := hlen ▸ hi
  refine ⟨cfg.templates.get ⟨i, hit⟩, List.get?_eq_get hit, ?_⟩
  unfold _decode_response
  rw [pyGetElem_natCast, List.get?_eq_get hit]
  rfl

def c8TemplateA : Template := { text := "one", render := fun _ => "one" }

def c8TemplateB : Template := { text := "two", render := fun _ => "two" }

def c8Cfg : BotConfig :=
  { templates := [c8TemplateA, c8TemplateB]
    actions := ["a0", "a1"]
    use_action_mask := false
    tokenizer := id
    bow_encoder := fun _ => []
    embedder := none
    intent_classifier := none
    slot_filler := none
    tracker_infer := fun _ => []
    net_infer := fun _ _ => []
    num_epochs := 0
    val_patience := 0 }

def c8St : BotState :=
  { tracker := [], db_result := none, prev_action := [0, 0], network_resets := 0 }

/-- Witness for C8 at a concrete two-action configuration. -/
theorem c8_codec_roundtrip_witness :
    c8Cfg.actions.get? 1 = some "a1" ∧
    ∃ t, c8Cfg.templates.get? 1 = some t ∧
      _decode_response c8Cfg c8St ((1 : Nat) : Int) =
        some (t.render (overlayDb c8St.tracker c8St.db_result)) :=
  c8_codec_roundtrip c8Cfg c8St rfl "a1" 1 rfl

lemma fitGo_stop (vp : Nat) (accs : Nat → ℚ) (r j : Nat) (p : Int) (best : ℚ)
    (h : (patienceUpdate vp p best (accs j)).1 < 1) :
    fitGo vp accs (r + 1) j p best = (1, true) := by
  simp only [fitGo]
  rw [if_pos h]

lemma fitGo_go (vp : Nat) (accs : Nat → ℚ) (r j : Nat) (p : Int) (best : ℚ)
    (h : ¬ (patienceUpdate vp p best (accs j)).1 < 1) :
    fitGo vp accs (r + 1) j p best =
      ((fitGo vp accs r (j + 1) (patienceUpdate vp p best (accs j)).1
          (patienceUpdate vp p best (accs j)).2).1 + 1,
        (fitGo vp accs r (j + 1) (patienceUpdate vp p best (accs j)).1
          (patienceUpdate vp p best (accs j)).2).2) := by
  simp only [fitGo]
  rw [if_neg h]

lemma fitGo_monotone_no_stop (vp : Nat) (accs : Nat → ℚ) (hvp : 1 ≤ vp)
    (hmono : ∀ j, accs j ≤ accs (j + 1)) :
    ∀ (r j : Nat) (best : ℚ), best ≤ accs j →
      fitGo vp accs r j (vp : Int) best = (r, false) := by
  intro r
  induction r with
  | zero => intro j best hb; rfl
  | succ n ih =>
    intro j best hb
    have hnl : ¬ accs j < best := not_lt.mpr hb
    have hpu : patienceUpdate vp (vp : Int) best (accs j) = ((vp : Int), accs j) := by
      unfold patienceUpdate
      rw [if_neg hnl, if_neg (by simp)]
    have hvpi : ¬ ((vp : Int) < 1) := by exact_mod_cast not_lt.mpr hvp
    simp only [fitGo, hpu]
    rw [if_neg hvpi, ih (j + 1) (accs j) (hmono j)]

def c5Accs : Nat → ℚ := fun j => if j = 0 then 1 / 2 else if j = 1 then 2 / 5 else 3 / 10

def c5Cfg : BotConfig :=
  { templates := []
    actions := []
    use_action_mask := false
    tokenizer := id
    bow_encoder := fun _ => []
    embedder := none
    intent_classifier := none
    slot_filler := none
    tracker_infer := fun _ => []
    net_infer := fun _ _ => []
    num_epochs := 200
    val_patience := 2 }

/-- C5: each epoch decrements the patience counter exactly when its
validation accuracy is strictly below the best seen so far, and otherwise
resets the counter to `val_patience` and updates the best; with
accuracies `[1/2, 2/5, 3/10]` and patience 2 the loop stops after the
third epoch, far short of `num_epochs = 200`; with monotonically
non-decreasing accuracies and `val_patience ≥ 1` the loop runs exactly
`num_epochs` epochs; and `save` runs on both exit paths. -/
theorem c5_early_stopping (cfg : BotConfig) (accs : Nat → ℚ)
    (hvp : 1 ≤ cfg.val_patience)
    (hmono : ∀ j, accs j ≤ accs (j + 1)) (h0 : 0 ≤ accs 0) :
    (∀ (p : Int) (best acc : ℚ),
        (acc < best →
          patienceUpdate cfg.val_patience p best acc = (p - 1, best)) ∧
        (¬ acc < best →
          patienceUpdate cfg.val_patience p best acc =
            ((cfg.val_patience : Int), acc))) ∧
    trainLoop cfg accs =
      { epochs_run := cfg.num_epochs, early_stop := false, saved := true } ∧
    trainLoop c5Cfg c5Accs =
      { epochs_run := 3, early_stop := true, saved := true } := by
  refine ⟨fun p best acc => ⟨fun h => ?_, fun h => ?_⟩, ?_, ?_⟩
  · unfold patienceUpdate
    rw [if_pos h]
  · unfold patienceUpdate
    rw [if_neg h]
    by_cases hp : p = (cfg.val_patience : Int)
    · rw [if_neg (not_not_intro hp), hp]
    · rw [if_pos hp]
  · have hfit := fitGo_monotone_no_stop cfg.val_patience accs hvp hmono
      cfg.num_epochs 0 0 h0
    simp [trainLoop, hfit]
  · have pu0 : patienceUpdate 2 2 0 (c5Accs 0) = (2, 1 / 2) := by
      norm_num [patienceUpdate, c5Accs]
    have pu1 : patienceUpdate 2 2 (1 / 2) (c5Accs 1) = (1, 1 / 2) := by
      norm_num [patienceUpdate, c5Accs]
    have pu2 : patienceUpdate 2 1 (1 / 2) (c5Accs 2) = (0, 1 / 2) := by
      norm_num [patienceUpdate, c5Accs]
    have h2 : fitGo 2 c5Accs 198 2 1 (1 / 2) = (1, true) := by
      rw [show (198 : Nat) = 197 + 1 from rfl,
        fitGo_stop 2 c5Accs 197 2 1 (1 / 2) (by rw [pu2]; norm_num)]
    have h1 : fitGo 2 c5Accs 199 1 2 (1 / 2) = (2, true) := by
      rw [show (199 : Nat) = 198 + 1 from rfl,
        fitGo_go 2 c5Accs 198 1 2 (1 / 2) (by rw [pu1]; norm_num), pu1, h2]
    have h0f : fitGo 2 c5Accs 200 0 2 0 = (3, true) := by
      rw [show (200 : Nat) = 199 + 1 from rfl,
        fitGo_go 2 c5Accs 199 0 2 0 (by rw [pu0]; norm_num), pu0, h1]
    show ({ epochs_run := (fitGo 2 c5Accs 200 0 2 0).1,
            early_stop := (fitGo 2 c5Accs 200 0 2 0).2, saved := true } : FitResult) =
      { epochs_run := 3, early_stop := true, saved := true }
    rw [h0f]

def c5WCfg : BotConfig :=
  { templates := []
    actions := []
    use_action_mask := false
    tokenizer := id
    bow_encoder := fun _ => []
    embedder := none
    intent_classifier := none
    slot_filler := none
    tracker_infer := fun _ => []
    net_infer := fun _ _ => []
    num_epochs := 2
    val_patience := 1 }

/-- Witness for C5 with constant accuracies and patience 1. -/
theorem c5_early_stopping_witness :
    (∀ (p : Int) (best acc : ℚ),
        (acc < best →
          patienceUpdate c5WCfg.val_patience p best acc = (p - 1, best)) ∧
        (¬ acc < best →
          patienceUpdate c5WCfg.val_patience p best acc =
            ((c5WCfg.val_patience : Int), acc))) ∧
    trainLoop c5WCfg (fun _ => 0) =
      { epochs_run := c5WCfg.num_epochs, early_stop := false, saved := true } ∧
    trainLoop c5Cfg c5Accs =
      { epochs_run := 3, early_stop := true, saved := true } :=
  c5_early_stopping c5WCfg (fun _ => 0) (Nat.le_refl 1)
    (fun _ => le_refl 0) (le_refl 0)

/-! ## Helper lemmas about the per-turn training loop -/

lemma encode_context_prev (cfg : BotConfig) (s : BotState) (context : String)
    (db : Option Slots) :
    ((_encode_context cfg s context db).2).prev_action = s.prev_action := rfl

lemma encode_context_db (cfg : BotConfig) (s : BotState) (context : String)
    (db : Option Slots) :
    ((_encode_context cfg s context db).2).db_result = s.db_result := rfl

lemma dbUpdate_prev (s : BotState) (d : Option Slots) :
    (dbUpdate s d).prev_action = s.prev_action := by
  cases d <;> rfl

lemma dbUpdate_resets (s : BotState) (d : Option Slots) :
    (dbUpdate s d).network_resets = s.network_resets := by
  cases d <;> rfl

lemma setOneHot_some (v : List ℚ) (i : Nat) (pa : List ℚ)
    (h : setOneHot v i = some pa) :
    pa = (List.replicate v.length 0).set i 1 ∧ pa.length = v.length ∧
      i < v.length := by
  unfold setOneHot at h
  by_cases hi : i < v.length
  · rw [if_pos hi] at h
    injection h with h
    subst h
    refine ⟨by rw [List.map_const'], ?_, hi⟩
    rw [List.length_set, List.length_map]
  · rw [if_neg hi] at h
    exact absurd h (by simp)

lemma turnStep_some (cfg : BotConfig) (s : BotState) (t : Turn) (act : String)
    (s2 : BotState) (lg : TurnLog) (h : turnStep cfg s t act = some (s2, lg)) :
    ∃ aid pa, _encode_response cfg act = some aid ∧
      setOneHot (dbUpdate (_encode_context cfg s t.text t.db_result).2
        t.db_result).prev_action aid = some pa ∧
      s2 = { dbUpdate (_encode_context cfg s t.text t.db_result).2 t.db_result
              with prev_action := pa } ∧
      lg = { features := (_encode_context cfg s t.text t.db_result).1,
             action_id := aid, mask := _action_mask cfg s2 } := by
  cases henc : _encode_response cfg act with
  | none =>
    simp only [turnStep, henc] at h
    exact Option.noConfusion h
  | some aid =>
    cases hset : setOneHot (dbUpdate (_encode_context cfg s t.text t.db_result).2
        t.db_result).prev_action aid with
    | none =>
      simp only [turnStep, henc, hset] at h
      exact Option.noConfusion h
    | some pa =>
      simp only [turnStep, henc, hset, Option.some.injEq, Prod.mk.injEq] at h
      obtain ⟨rfl, rfl⟩ := h
      exact ⟨aid, pa, rfl, hset, rfl, rfl⟩

lemma turnStep_prev_length (cfg : BotConfig) (s : BotState) (t : Turn)
    (act : String) (s2 : BotState) (lg : TurnLog)
    (h : turnStep cfg s t act = some (s2, lg)) :
    s2.prev_action.length = s.prev_action.length := by
  obtain ⟨aid, pa, henc, hset, rfl, hlg⟩ := turnStep_some cfg s t act s2 lg h
  have := (setOneHot_some _ aid pa hset).2.1
  simpa [dbUpdate_prev, encode_context_prev] using this

lemma turnStep_resets (cfg : BotConfig) (s : BotState) (t : Turn)
    (act : String) (s2 : BotState) (lg : TurnLog)
    (h : turnStep cfg s t act = some (s2, lg)) :
    s2.network_resets = s.network_resets := by
  obtain ⟨aid, pa, henc, hset, rfl, hlg⟩ := turnStep_some cfg s t act s2 lg h
  simp [dbUpdate_resets, _encode_context]

lemma runTurns_length (cfg : BotConfig) :
    ∀ (l : List (Turn × String)) (s s2 : BotState) (logs : List TurnLog),
      runTurns cfg s l = some (s2, logs) → logs.length = l.length := by
  intro l
  induction l with
  | nil =>
    intro s s2 logs h
    simp only [runTurns, Option.some.injEq, Prod.mk.injEq] at h
    rw [← h.2]
    rfl
  | cons hd rest ih =>
    intro s s2 logs h
    obtain ⟨t, act⟩ := hd
    simp only [runTurns] at h
    cases hstep : turnStep cfg s t act with
    | none => rw [hstep] at h; exact absurd h (by simp)
    | some r =>
      obtain ⟨s3, lg⟩ := r
      rw [hstep, Option.map_eq_some'] at h
      obtain ⟨⟨s4, logs2⟩, hrec, heq⟩ := h
      simp only [Prod.mk.injEq] at heq
      obtain ⟨-, rfl⟩ := heq
      simp [ih s3 s4 logs2 hrec]

lemma runTurns_prev_length (cfg : BotConfig) :
    ∀ (l : List (Turn × String)) (s s2 : BotState) (logs : List TurnLog),
      runTurns cfg s l = some (s2, logs) →
      s2.prev_action.length = s.prev_action.length := by
  intro l
  induction l with
  | nil =>
    intro s s2 logs h
    simp only [runTurns, Option.some.injEq, Prod.mk.injEq] at h
    rw [← h.1]
  | cons hd rest ih =>
    intro s s2 logs h
    obtain ⟨t, act⟩ := hd
    simp only [runTurns] at h
    cases hstep : turnStep cfg s t act with
    | none => rw [hstep] at h; exact absurd h (by simp)
    | some r =>
      obtain ⟨s3, lg⟩ := r
      rw [hstep, Option.map_eq_some'] at h
      obtain ⟨⟨s4, logs2⟩, hrec, heq⟩ := h
      simp only [Prod.mk.injEq] at heq
      obtain ⟨rfl, -⟩ := heq
      rw [ih s3 s4 logs2 hrec, turnStep_prev_length cfg s t act s3 lg hstep]

lemma runTurns_resets (cfg : BotConfig) :
    ∀ (l : List (Turn × String)) (s s2 : BotState) (logs : List TurnLog),
      runTurns cfg s l = some (s2, logs) →
      s2.network_resets = s.network_resets := by
  intro l
  induction l with
  | nil =>
    intro s s2 logs h
    simp only [runTurns, Option.some.injEq, Prod.mk.injEq] at h
    rw [← h.1]
  | cons hd rest ih =>
    intro s s2 logs h
    obtain ⟨t, act⟩ := hd
    simp only [runTurns] at h
    cases hstep : turnStep cfg s t act with
    | none => rw [hstep] at h; exact absurd h (by simp)
    | some r =>
      obtain ⟨s3, lg⟩ := r
      rw [hstep, Option.map_eq_some'] at h
      obtain ⟨⟨s4, logs2⟩, hrec, heq⟩ := h
      simp only [Prod.mk.injEq] at heq
      obtain ⟨rfl, -⟩ := heq
      rw [ih s3 s4 logs2 hrec, turnStep_resets cfg s t act s3 lg hstep]

lemma runTurns_append (cfg : BotConfig) (l1 l2 : List (Turn × String)) :
    ∀ s, runTurns cfg s (l1 ++ l2) =
      (runTurns cfg s l1).bind (fun r =>
        (runTurns cfg r.1 l2).map (fun q => (q.1, r.2 ++ q.2))) := by
  induction l1 with
  | nil =>
    intro s
    show runTurns cfg s l2 =
      (runTurns cfg s l2).map (fun q => (q.1, ([] : List TurnLog) ++ q.2))
    cases runTurns cfg s l2 with
    | none => rfl
    | some q => simp
  | cons hd tl ih =>
    intro s
    obtain ⟨t, act⟩ := hd
    cases hstep : turnStep cfg s t act with
    | none => simp only [List.cons_append, runTurns, hstep, Option.none_bind]
    | some r =>
      obtain ⟨s2, lg⟩ := r
      simp only [List.cons_append, runTurns, hstep, Option.some_bind, List.append_eq]
      rw [ih s2]
      cases h1 : runTurns cfg s2 tl with
      | none => simp
      | some r1 =>
        obtain ⟨s3, logs1⟩ := r1
        cases h2 : runTurns cfg s3 l2 with
        | none => simp [h2]
        | some r2 => simp [h2]

lemma runTurns_split (cfg : BotConfig) (l : List (Turn × String)) (k : Nat)
    (s se : BotState) (logs : List TurnLog)
    (h : runTurns cfg s l = some (se, logs)) :
    ∃ sk, runTurns cfg s (l.take k) = some (sk, logs.take k) ∧
      runTurns cfg sk (l.drop k) = some (se, logs.drop k) := by
  have happ := runTurns_append cfg (l.take k) (l.drop k) s
  rw [List.take_append_drop, h] at happ
  cases h1 : runTurns cfg s (l.take k) with
  | none => rw [h1] at happ; simp at happ
  | some r =>
    obtain ⟨sk, l1⟩ := r
    rw [h1, Option.some_bind] at happ
    cases h2 : runTurns cfg sk (l.drop k) with
    | none => rw [h2] at happ; simp at happ
    | some q =>
      obtain ⟨se2, l2⟩ := q
      rw [h2] at happ
      simp only [Option.map_some', Option.some.injEq,
        Prod.mk.injEq] at happ
      obtain ⟨hse, hlogs⟩ := happ
      have hl1 : l1.length = (l.take k).length := runTurns_length cfg _ _ _ _ h1
      have hlen : logs.length = l.length := runTurns_length cfg _ _ _ _ h
      by_cases hk : k ≤ l.length
      · have hl1k : l1.length = k := by
          rw [hl1, List.length_take]
          omega
        have htake : logs.take k = l1 := by rw [hlogs, List.take_left' hl1k]
        have hdrop : logs.drop k = l2 := by rw [hlogs, List.drop_left' hl1k]
        exact ⟨sk, by rw [htake], by rw [hdrop, hse]; exact h2⟩
      · have hl2 : l2.length = (l.drop k).length := runTurns_length cfg _ _ _ _ h2
        have hl2nil : l2 = [] := by
          rw [← List.length_eq_zero, hl2, List.length_drop]
          omega
        have hl1full : logs = l1 := by
          rw [hlogs, hl2nil, List.append_nil]
        have htake : logs.take k = l1 := by
          rw [List.take_of_length_le (by omega), hl1full]
        have hdrop : logs.drop k = ([] : List TurnLog) := by
          rw [List.drop_eq_nil_of_le (by omega)]
        exact ⟨sk, by rw [htake], by rw [hdrop, hse]; exact hl2nil ▸ h2⟩

/-- C7: the fused feature vector is the concatenation, in the fixed order
bag-of-words, embedding, intent, tracker-state, context-flags,
previous-action, of the per-segment features; an absent optional
collaborator contributes a zero-length segment; and under the
collaborators' fixed-output-length contracts the feature vector's length
is the same at every turn (any two states with equally long
previous-action memories, any two texts, any two db_results). -/
theorem c7_feature_order_and_length (cfg : BotConfig)
    (hbow : ∀ t u, (cfg.bow_encoder t).length = (cfg.bow_encoder u).length)
    (hemb : ∀ f, cfg.embedder = some f → ∀ t u, (f t).length = (f u).length)
    (hint : ∀ f, cfg.intent_classifier = some f →
        ∀ t u, (f t).length = (f u).length)
    (htr : ∀ a b, (cfg.tracker_infer a).length = (cfg.tracker_infer b).length) :
    (∀ s context db, (_encode_context cfg s context db).1 =
        cfg.bow_encoder (cfg.tokenizer context)
          ++ embSeg cfg (cfg.tokenizer context)
          ++ intentSeg cfg (cfg.tokenizer context)
          ++ cfg.tracker_infer
              (trackerAfterSlotfill cfg s.tracker (cfg.tokenizer context))
          ++ [dbEmptyFlag db, dbEmptyFlag s.db_result]
          ++ s.prev_action) ∧
    (cfg.embedder = none → ∀ t, embSeg cfg t = []) ∧
    (cfg.intent_classifier = none → ∀ t, intentSeg cfg t = []) ∧
    (∀ s1 s2 ctx1 ctx2 db1 db2, s1.prev_action.length = s2.prev_action.length →
        ((_encode_context cfg s1 ctx1 db1).1).length =
          ((_encode_context cfg s2 ctx2 db2).1).length) ∧
    (∀ s, (reset cfg s).prev_action.length = cfg.nActions) ∧
    (∀ l s s2 lgs, runTurns cfg s l = some (s2, lgs) →
        s2.prev_action.length = s.prev_action.length) := by
  have hembLen : ∀ t u, (embSeg cfg t).length = (embSeg cfg u).length := by
    intro t u
    cases he : cfg.embedder with
    | none => simp [embSeg, he]
    | some f => simpa [embSeg, he] using hemb f he t u
  have hintLen : ∀ t u, (intentSeg cfg t).length = (intentSeg cfg u).length := by
    intro t u
    cases he : cfg.intent_classifier with
    | none => simp [intentSeg, he]
    | some f => simpa [intentSeg, he] using hint f he t u
  refine ⟨fun s context db => rfl,
    fun h t => by simp [embSeg, h],
    fun h t => by simp [intentSeg, h],
    fun s1 s2 ctx1 ctx2 db1 db2 hp => ?_,
    fun s => by simp [reset],
    fun l s s2 lgs hrun => runTurns_prev_length cfg l s s2 lgs hrun⟩
  simp only [_encode_context, List.length_append, List.length_cons,
    List.length_nil]
  rw [hbow (cfg.tokenizer ctx1) (cfg.tokenizer ctx2),
    hembLen (cfg.tokenizer ctx1) (cfg.tokenizer ctx2),
    hintLen (cfg.tokenizer ctx1) (cfg.tokenizer ctx2),
    htr (trackerAfterSlotfill cfg s1.tracker (cfg.tokenizer ctx1))
      (trackerAfterSlotfill cfg s2.tracker (cfg.tokenizer ctx2)), hp]

def c7Cfg : BotConfig :=
  { templates := []
    actions := []
    use_action_mask := false
    tokenizer := id
    bow_encoder := fun _ => [1]
    embedder := none
    intent_classifier := none
    slot_filler := none
    tracker_infer := fun _ => [2]
    net_infer := fun _ _ => []
    num_epochs := 0
    val_patience := 0 }

/-- Witness for C7 at a configuration without the optional collaborators. -/
theorem c7_feature_order_and_length_witness :
    (∀ s context db, (_encode_context c7Cfg s context db).1 =
        c7Cfg.bow_encoder (c7Cfg.tokenizer context)
          ++ embSeg c7Cfg (c7Cfg.tokenizer context)
          ++ intentSeg c7Cfg (c7Cfg.tokenizer context)
          ++ c7Cfg.tracker_infer
              (trackerAfterSlotfill c7Cfg s.tracker (c7Cfg.tokenizer context))
          ++ [dbEmptyFlag db, dbEmptyFlag s.db_result]
          ++ s.prev_action) ∧
    (c7Cfg.embedder = none → ∀ t, embSeg c7Cfg t = []) ∧
    (c7Cfg.intent_classifier = none → ∀ t, intentSeg c7Cfg t = []) ∧
    (∀ s1 s2 ctx1 ctx2 db1 db2, s1.prev_action.length = s2.prev_action.length →
        ((_encode_context c7Cfg s1 ctx1 db1).1).length =
          ((_encode_context c7Cfg s2 ctx2 db2).1).length) ∧
    (∀ s, (reset c7Cfg s).prev_action.length = c7Cfg.nActions) ∧
    (∀ l s s2 lgs, runTurns c7Cfg s l = some (s2, lgs) →
        s2.prev_action.length = s.prev_action.length) :=
  c7_feature_order_and_length c7Cfg (fun _ _ => rfl)
    (fun f hf => Option.noConfusion hf) (fun f hf => Option.noConfusion hf)
    (fun _ _ => rfl)

/-- C4: in a training turn the stored database result is replaced only when
the turn supplies a non-null db_result and is left unchanged otherwise,
and the context flag "previously stored db_result is empty" inside the
turn's features is computed from the stored value before this turn's
db_result replaces it (the features' context segment reads
`s.db_result`, the pre-update state). -/
theorem c4_sticky_db_result (cfg : BotConfig) (s : BotState) (t : Turn)
    (act : String) (s2 : BotState) (lg : TurnLog)
    (h : turnStep cfg s t act = some (s2, lg)) :
    (t.db_result = none → s2.db_result = s.db_result) ∧
    (∀ d, t.db_result = some d → s2.db_result = some d) ∧
    ∃ front, lg.features =
      front ++ [dbEmptyFlag t.db_result, dbEmptyFlag s.db_result]
        ++ s.prev_action := by
  obtain ⟨aid, pa, henc, hset, rfl, rfl⟩ := turnStep_some cfg s t act s2 lg h
  refine ⟨fun hnone => ?_, fun d hd => ?_, ?_⟩
  · simp [hnone, dbUpdate, _encode_context]
  · simp [hd, dbUpdate]
  · refine ⟨cfg.bow_encoder (cfg.tokenizer t.text)
      ++ embSeg cfg (cfg.tokenizer t.text)
      ++ intentSeg cfg (cfg.tokenizer t.text)
      ++ cfg.tracker_infer
          (trackerAfterSlotfill cfg s.tracker (cfg.tokenizer t.text)), ?_⟩
    simp [_encode_context, List.append_assoc]

def c4Template : Template := { text := "t", render := fun _ => "t" }

def c4Cfg : BotConfig :=
  { templates := [c4Template]
    actions := ["act0"]
    use_action_mask := false
    tokenizer := id
    bow_encoder := fun _ => []
    embedder := none
    intent_classifier := none
    slot_filler := none
    tracker_infer := fun _ => []
    net_infer := fun _ _ => []
    num_epochs := 0
    val_patience := 0 }

def c4S0 : BotState :=
  { tracker := [], db_result := none, prev_action := [0], network_resets := 0 }

def c4Turn1 : Turn := { text := "t1", db_result := some [("x", "1")] }

def c4Turn2 : Turn := { text := "t2", db_result := none }

def c4S1 : BotState :=
  { tracker := [], db_result := some [("x", "1")], prev_action := [1],
    network_resets := 1 }

def c4Lg1 : TurnLog := { features := [0, 0, 0], action_id := 0, mask := [1] }

def c4Lg2 : TurnLog := { features := [0, 0, 1], action_id := 0, mask := [1] }

/-- Witness for C4: turn 1 supplies `db_result = [("x", "1")]`, turn 2
supplies none; at turn 2 the stored result is still `[("x", "1")]`, its
"empty" flag is 0 (false), and the stored value is unchanged. -/
theorem c4_sticky_db_result_witness :
    turnStep c4Cfg (reset c4Cfg c4S0) c4Turn1 "act0" = some (c4S1, c4Lg1) ∧
    c4S1.db_result = some [("x", "1")] ∧
    dbEmptyFlag c4S1.db_result = 0 ∧
    ((c4Turn2.db_result = none → c4S1.db_result = c4S1.db_result) ∧
      (∀ d, c4Turn2.db_result = some d → c4S1.db_result = some d) ∧
      ∃ front, c4Lg2.features =
        front ++ [dbEmptyFlag c4Turn2.db_result, dbEmptyFlag c4S1.db_result]
          ++ c4S1.prev_action) :=
  ⟨by decide, by decide, by decide,
   c4_sticky_db_result c4Cfg c4S1 c4Turn2 "act0" c4S1 c4Lg2 (by decide)⟩

lemma zip_append_right {α β : Type} :
    ∀ (cs : List α) (rs extra : List β), cs.length ≤ rs.length →
      cs.zip (rs ++ extra) = cs.zip rs := by
  intro cs
  induction cs with
  | nil => intro rs extra h; simp
  | cons c cs ih =>
    intro rs extra h
    cases rs with
    | nil => simp at h
    | cons r rs =>
      simp only [List.length_cons] at h
      simp only [List.cons_append, List.zip_cons_cons]
      rw [ih rs extra (by omega)]

lemma zip_append_left {α β : Type} :
    ∀ (rs : List β) (cs extra : List α), rs.length ≤ cs.length →
      (cs ++ extra).zip rs = cs.zip rs := by
  intro rs
  induction rs with
  | nil => intro cs extra h; simp [List.zip_nil_right]
  | cons r rs ih =>
    intro cs extra h
    cases cs with
    | nil => simp at h
    | cons c cs =>
      simp only [List.length_cons] at h
      simp only [List.cons_append, List.zip_cons_cons]
      rw [ih cs extra (by omega)]

lemma train_on_batch_dialog_lengths (cfg : BotConfig) :
    ∀ (batch : List (List Turn × List String)) (s s3 : BotState)
      (alllogs : List (List TurnLog)),
      train_on_batch cfg s batch = some (s3, alllogs) →
      ∀ i d lgs, batch.get? i = some d → alllogs.get? i = some lgs →
        lgs.length = min d.1.length d.2.length := by
  intro batch
  induction batch with
  | nil =>
    intro s s3 alllogs h i d lgs hb hl
    simp at hb
  | cons hd tlb ih =>
    intro s s3 alllogs h i d lgs hb hl
    cases hdlg : trainDialog cfg s hd.1 hd.2 with
    | none =>
      simp only [train_on_batch, hdlg] at h
      exact Option.noConfusion h
    | some r =>
      obtain ⟨s4, logs1⟩ := r
      simp only [train_on_batch, hdlg, Option.map_eq_some'] at h
      obtain ⟨⟨s5, rest⟩, hrec, heq⟩ := h
      simp only [Prod.mk.injEq] at heq
      obtain ⟨-, rfl⟩ := heq
      cases i with
      | zero =>
        simp only [List.get?] at hb hl
        injection hb with hb
        injection hl with hl
        subst hb
        subst hl
        unfold trainDialog at hdlg
        have hlen := runTurns_length cfg (hd.1.zip hd.2) _ _ _ hdlg
        rw [hlen, List.length_zip]
      | succ n =>
        simp only [List.get?] at hb hl
        exact ih s4 s5 rest hrec n d lgs hb hl

/-- C10: for a training dialog whose context and response sequences have
different lengths, the per-dialog turn loop (shared verbatim by
`train_on_batch` and the epoch body of `train`) processes exactly
`min(len(contexts), len(responses))` turn pairs, and the surplus turns of
the longer sequence are ignored without affecting the result. -/
theorem c10_truncating_zip (cfg : BotConfig) (s : BotState) (cs : List Turn)
    (rs : List String) (s2 : BotState) (logs : List TurnLog)
    (h : trainDialog cfg s cs rs = some (s2, logs)) :
    logs.length = min cs.length rs.length ∧
    (∀ batch s3 alllogs, train_on_batch cfg s batch = some (s3, alllogs) →
        ∀ i d lgs, batch.get? i = some d → alllogs.get? i = some lgs →
          lgs.length = min d.1.length d.2.length) ∧
    (∀ extra, cs.length ≤ rs.length →
        trainDialog cfg s cs (rs ++ extra) = trainDialog cfg s cs rs) ∧
    (∀ extra, rs.length ≤ cs.length →
        trainDialog cfg s (cs ++ extra) rs = trainDialog cfg s cs rs) := by
  refine ⟨?_,
    fun batch s3 alllogs hb => train_on_batch_dialog_lengths cfg batch s s3 alllogs hb,
    fun extra hle => ?_, fun extra hle => ?_⟩
  · unfold trainDialog at h
    rw [runTurns_length cfg (cs.zip rs) _ _ _ h, List.length_zip]
  · unfold trainDialog
    rw [zip_append_right cs rs extra hle]
  · unfold trainDialog
    rw [zip_append_left rs cs extra hle]

def c10Cfg : BotConfig :=
  { templates := [c4Template]
    actions := ["act0"]
    use_action_mask := false
    tokenizer := id
    bow_encoder := fun _ => []
    embedder := none
    intent_classifier := none
    slot_filler := none
    tracker_infer := fun _ => []
    net_infer := fun _ _ => []
    num_epochs := 0
    val_patience := 0 }

def c10S0 : BotState :=
  { tracker := [], db_result := none, prev_action := [0], network_resets := 0 }

def c10Cs : List Turn :=
  [{ text := "a", db_result := none }, { text := "b", db_result := none }]

def c10Rs : List String := ["act0"]

def c10Se : BotState :=
  { tracker := [], db_result := none, prev_action := [1], network_resets := 1 }

def c10Logs : List TurnLog :=
  [{ features := [0, 0, 0], action_id := 0, mask := [1] }]

/-- Witness for C10: two contexts paired with one response process exactly
one turn. -/
theorem c10_truncating_zip_witness :
    ((c10Logs.length = min c10Cs.length c10Rs.length) ∧
      (∀ batch s3 alllogs, train_on_batch c10Cfg c10S0 batch = some (s3, alllogs) →
          ∀ i d lgs, batch.get? i = some d → alllogs.get? i = some lgs →
            lgs.length = min d.1.length d.2.length) ∧
      (∀ extra, c10Cs.length ≤ c10Rs.length →
          trainDialog c10Cfg c10S0 c10Cs (c10Rs ++ extra) =
            trainDialog c10Cfg c10S0 c10Cs c10Rs) ∧
      (∀ extra, c10Rs.length ≤ c10Cs.length →
          trainDialog c10Cfg c10S0 (c10Cs ++ extra) c10Rs =
            trainDialog c10Cfg c10S0 c10Cs c10Rs)) := by
  exact c10_truncating_zip c10Cfg c10S0 c10Cs c10Rs c10Se c10Logs (by decide)

/-! ## Helper lemmas about the inference path -/

lemma _infer_some (cfg : BotConfig) (s : BotState) (context : String)
    (db : Option Slots) (r : String) (s2 : BotState)
    (h : _infer cfg s context db = some (r, s2)) :
    s2.network_resets = s.network_resets ∧
      (db = none → s2.db_result = s.db_result) := by
  cases hset : setOneHot (dbUpdate (_encode_context cfg s context db).2 db).prev_action
      (pyArgmax (cfg.net_infer (_encode_context cfg s context db).1
        (_action_mask cfg (_encode_context cfg s context db).2))) with
  | none =>
    simp only [_infer, hset] at h
    exact Option.noConfusion h
  | some pa =>
    simp only [_infer, hset, Option.map_eq_some'] at h
    obtain ⟨r0, hdec, heq⟩ := h
    simp only [Prod.mk.injEq] at heq
    obtain ⟨-, rfl⟩ := heq
    constructor
    · simp [dbUpdate_resets, _encode_context]
    · intro hdb
      subst hdb
      simp [dbUpdate, _encode_context]

lemma inferTurnStep_resets (cfg : BotConfig) (s : BotState) (c : InferTurn)
    (r : String) (s2 : BotState) (h : inferTurnStep cfg s c = some (r, s2)) :
    s2.network_resets = s.network_resets := by
  cases hact : c.prev_resp_act with
  | none =>
    simp only [inferTurnStep, hact] at h
    exact (_infer_some cfg s c.text c.db_result r s2 h).1
  | some act =>
    cases henc : _encode_response cfg act with
    | none =>
      simp only [inferTurnStep, hact, henc] at h
      exact Option.noConfusion h
    | some aid =>
      cases hset : setOneHot s.prev_action aid with
      | none =>
        simp only [inferTurnStep, hact, henc, hset] at h
        exact Option.noConfusion h
      | some pa =>
        simp only [inferTurnStep, hact, henc, hset] at h
        exact (_infer_some cfg { s with prev_action := pa } c.text
          c.db_result r s2 h).1

lemma inferLoop_resets (cfg : BotConfig) :
    ∀ (cs : List InferTurn) (s : BotState) (res : List String) (s2 : BotState),
      inferLoop cfg s cs = some (res, s2) →
      s2.network_resets = s.network_resets := by
  intro cs
  induction cs with
  | nil =>
    intro s res s2 h
    simp only [inferLoop, Option.some.injEq, Prod.mk.injEq] at h
    rw [← h.2]
  | cons c rest ih =>
    intro s res s2 h
    cases hstep : inferTurnStep cfg s c with
    | none =>
      simp only [inferLoop, hstep] at h
      exact Option.noConfusion h
    | some r =>
      obtain ⟨r0, s3⟩ := r
      simp only [inferLoop, hstep, Option.map_eq_some'] at h
      obtain ⟨⟨res2, s4⟩, hrec, heq⟩ := h
      simp only [Prod.mk.injEq] at heq
      obtain ⟨-, rfl⟩ := heq
      rw [ih s3 res2 s4 hrec, inferTurnStep_resets cfg s c r0 s3 hstep]

/-- C9: the single-string branch of `infer` performs exactly one `_infer`
turn with no per-dialog reset: the features it encodes are built from the
current tracker state, the stored database result (as the second context
flag), and the current previous-action memory, all left over from earlier
calls, and neither the network-reset counter nor the stored database
result changes; the dialog-level path `_infer_dialog` instead resets
(advancing the network-reset counter by exactly one) before its turns. -/
theorem c9_single_string_no_reset (cfg : BotConfig) (s : BotState) (x : String) :
    inferStr cfg s x = _infer cfg s x none ∧
    (_encode_context cfg s x none).1 =
      cfg.bow_encoder (cfg.tokenizer x)
        ++ embSeg cfg (cfg.tokenizer x)
        ++ intentSeg cfg (cfg.tokenizer x)
        ++ cfg.tracker_infer (trackerAfterSlotfill cfg s.tracker (cfg.tokenizer x))
        ++ [dbEmptyFlag none, dbEmptyFlag s.db_result]
        ++ s.prev_action ∧
    (∀ r s2, inferStr cfg s x = some (r, s2) →
        s2.network_resets = s.network_resets ∧ s2.db_result = s.db_result) ∧
    (∀ cs, _infer_dialog cfg s cs = inferLoop cfg (reset cfg s) cs) ∧
    (∀ cs res s2, _infer_dialog cfg s cs = some (res, s2) →
        s2.network_resets = s.network_resets + 1) := by
  refine ⟨rfl, rfl, fun r s2 h => ?_, fun cs => rfl, fun cs res s2 h => ?_⟩
  · have hi := _infer_some cfg s x none r s2 h
    exact ⟨hi.1, hi.2 rfl⟩
  · unfold _infer_dialog at h
    rw [inferLoop_resets cfg cs (reset cfg s) res s2 h]
    rfl

def c9Template : Template := { text := "r", render := fun _ => "resp" }

def c9Cfg : BotConfig :=
  { templates := [c9Template]
    actions := ["a0"]
    use_action_mask := false
    tokenizer := id
    bow_encoder := fun _ => []
    embedder := none
    intent_classifier := none
    slot_filler := none
    tracker_infer := fun _ => []
    net_infer := fun _ _ => [1]
    num_epochs := 0
    val_patience := 0 }

def c9S : BotState :=
  { tracker := [("s", "v")], db_result := some [("x", "1")],
    prev_action := [7], network_resets := 5 }

def c9S3 : BotState :=
  { tracker := [("s", "v")], db_result := some [("x", "1")],
    prev_action := [1], network_resets := 5 }

def c9SD : BotState :=
  { tracker := [], db_result := none, prev_action := [0], network_resets := 6 }

/-- Witness for C9: a single-string inference from a dirty state keeps the
reset counter and the stored database result; the dialog path advances
the reset counter. -/
theorem c9_single_string_no_reset_witness :
    c9S3.network_resets = c9S.network_resets ∧
    c9S3.db_result = c9S.db_result ∧
    c9SD.network_resets = c9S.network_resets + 1 :=
  ⟨((c9_single_string_no_reset c9Cfg c9S "hi").2.2.1 "resp" c9S3 (by decide)).1,
   ((c9_single_string_no_reset c9Cfg c9S "hi").2.2.1 "resp" c9S3 (by decide)).2,
   (c9_single_string_no_reset c9Cfg c9S "hi").2.2.2.2 [] [] c9SD (by decide)⟩

/-- C3: teacher forcing in the training turn loop.  For a training dialog
that processes successfully: the first turn's features are encoded from
the freshly reset state, whose previous-action memory is the zero vector;
every encoded feature vector ends with the previous-action memory that
was read; and for every turn `k` with ground-truth action id `a`
(recorded in its turn log), the state after processing turns `0..k` has
previous-action memory equal to the one-hot vector for `a`, and turn
`k+1`'s features are encoded exactly from that state. -/
theorem c3_teacher_forcing (cfg : BotConfig) (s0 : BotState) (cs : List Turn)
    (rs : List String) (se : BotState) (logs : List TurnLog)
    (h : trainDialog cfg s0 cs rs = some (se, logs)) :
    ((reset cfg s0).prev_action = List.replicate cfg.nActions 0 ∧
      ∀ tr0, (cs.zip rs).get? 0 = some tr0 → ∀ lg0, logs.get? 0 = some lg0 →
        lg0.features =
          (_encode_context cfg (reset cfg s0) tr0.1.text tr0.1.db_result).1) ∧
    (∀ s1 text db, ∃ front,
        (_encode_context cfg s1 text db).1 = front ++ s1.prev_action) ∧
    (∀ k tr1, (cs.zip rs).get? (k + 1) = some tr1 →
        ∃ sk1 lgk lgk1,
          runTurns cfg (reset cfg s0) ((cs.zip rs).take (k + 1)) =
            some (sk1, logs.take (k + 1)) ∧
          logs.get? k = some lgk ∧
          logs.get? (k + 1) = some lgk1 ∧
          sk1.prev_action = oneHot cfg.nActions lgk.action_id ∧
          lgk1.features =
            (_encode_context cfg sk1 tr1.1.text tr1.1.db_result).1) := by
  unfold trainDialog at h
  refine ⟨⟨rfl, ?_⟩,
    fun s1 text db =>
      ⟨cfg.bow_encoder (cfg.tokenizer text)
        ++ embSeg cfg (cfg.tokenizer text)
        ++ intentSeg cfg (cfg.tokenizer text)
        ++ cfg.tracker_infer (trackerAfterSlotfill cfg s1.tracker (cfg.tokenizer text))
        ++ [dbEmptyFlag db, dbEmptyFlag s1.db_result],
       by simp [_encode_context, List.append_assoc]⟩,
    fun k tr1 hz => ?_⟩
  · intro tr0 h0 lg0 hl0
    cases hzs : cs.zip rs with
    | nil => rw [hzs] at h0; simp at h0
    | cons a zrest =>
      rw [hzs] at h h0
      simp only [List.get?] at h0
      injection h0 with h0
      subst h0
      obtain ⟨t, act⟩ := a
      cases hstep : turnStep cfg (reset cfg s0) t act with
      | none =>
        simp only [runTurns, hstep] at h
        exact Option.noConfusion h
      | some r =>
        obtain ⟨s3, lg⟩ := r
        simp only [runTurns, hstep, Option.map_eq_some'] at h
        obtain ⟨⟨s4, logs2⟩, hrec, heq⟩ := h
        simp only [Prod.mk.injEq] at heq
        obtain ⟨-, hlogseq⟩ := heq
        rw [← hlogseq] at hl0
        simp only [List.get?, Option.some.injEq] at hl0
        subst hl0
        obtain ⟨aid, pa, henc, hset, hs3, hlg⟩ :=
          turnStep_some cfg (reset cfg s0) t act s3 lg hstep
        simp [hlg]
  · have hk1 : k + 1 < (cs.zip rs).length := (List.get?_eq_some.mp hz).1
    obtain ⟨sk1, hA, hB⟩ := runTurns_split cfg (cs.zip rs) (k + 1) _ _ _ h
    obtain ⟨sk, hA1, hA2⟩ := runTurns_split cfg ((cs.zip rs).take (k + 1)) k _ _ _ hA
    have hkz : k < (cs.zip rs).length := by omega
    obtain ⟨zk, hzk⟩ : ∃ zk, (cs.zip rs).get? k = some zk :=
      ⟨_, List.get?_eq_get hkz⟩
    have htd : ((cs.zip rs).take (k + 1)).drop k = [zk] := by
      rw [List.take_succ]
      rw [List.get?_eq_getElem?] at hzk
      rw [hzk]
      rw [List.drop_left' (by rw [List.length_take]; omega)]
      rfl
    rw [htd] at hA2
    obtain ⟨tk, actk⟩ := zk
    cases hstepk : turnStep cfg sk tk actk with
    | none =>
      simp only [runTurns, hstepk] at hA2
      exact Option.noConfusion hA2
    | some rk =>
      obtain ⟨s3, lg⟩ := rk
      simp only [runTurns, hstepk, Option.map_some', Option.some.injEq,
        Prod.mk.injEq] at hA2
      obtain ⟨h3eq, hdropk⟩ := hA2
      subst h3eq
      have hgk : logs.get? k = some lg := by
        have e1 := List.get?_drop (logs.take (k + 1)) k 0
        rw [← hdropk] at e1
        simp only [List.get?, Nat.add_zero] at e1
        rw [← List.get?_take (Nat.lt_succ_self k)]
        exact e1.symm
      have hskLen : sk.prev_action.length = cfg.nActions := by
        have hpl := runTurns_prev_length cfg _ _ _ _ hA1
        rw [hpl]
        simp [reset]
      obtain ⟨aid, pa, henck, hsetk, hs3, hlgk⟩ :=
        turnStep_some cfg sk tk actk s3 lg hstepk
      have hlgaid : lg.action_id = aid := by simp [hlgk]
      have hprev : s3.prev_action = oneHot cfg.nActions lg.action_id := by
        have hv := setOneHot_some _ aid pa hsetk
        simp only [dbUpdate_prev, encode_context_prev] at hv
        rw [hs3]
        show pa = oneHot cfg.nActions lg.action_id
        rw [hv.1, hskLen, ← hlgaid]
        rfl
      have hdropz : (cs.zip rs).drop (k + 1) = tr1 :: (cs.zip rs).drop (k + 2) := by
        rw [List.drop_eq_getElem_cons hk1]
        congr 1
        rw [List.get?_eq_getElem?, List.getElem?_eq_getElem hk1] at hz
        exact Option.some.inj hz
      rw [hdropz] at hB
      obtain ⟨t1, act1⟩ := tr1
      cases hstep1 : turnStep cfg s3 t1 act1 with
      | none =>
        simp only [runTurns, hstep1] at hB
        exact Option.noConfusion hB
      | some r1 =>
        obtain ⟨s4, lg1⟩ := r1
        simp only [runTurns, hstep1, Option.map_eq_some', Prod.mk.injEq] at hB
        obtain ⟨⟨s5, logs5⟩, hrec5, -, hdl⟩ := hB
        have hg1 : logs.get? (k + 1) = some lg1 := by
          have e2 := List.get?_drop logs (k + 1) 0
          rw [← hdl] at e2
          simp only [List.get?, Nat.add_zero] at e2
          exact e2.symm
        obtain ⟨aid1, pa1, henc1, hset1, hs4, hlg1⟩ :=
          turnStep_some cfg s3 t1 act1 s4 lg1 hstep1
        exact ⟨s3, lg, lg1, hA, hgk, hg1, hprev, by simp [hlg1]⟩

def c3T0 : Template := { text := "x0", render := fun _ => "x0" }

def c3T1 : Template := { text := "x1", render := fun _ => "x1" }

def c3Cfg : BotConfig :=
  { templates := [c3T0, c3T1]
    actions := ["a0", "a1"]
    use_action_mask := false
    tokenizer := id
    bow_encoder := fun _ => []
    embedder := none
    intent_classifier := none
    slot_filler := none
    tracker_infer := fun _ => []
    net_infer := fun _ _ => []
    num_epochs := 0
    val_patience := 0 }

def c3S0 : BotState :=
  { tracker := [], db_result := none, prev_action := [], network_resets := 0 }

def c3Cs : List Turn :=
  [{ text := "u1", db_result := none }, { text := "u2", db_result := none }]

def c3Rs : List String := ["a1", "a0"]

def c3Se : BotState :=
  { tracker := [], db_result := none, prev_action := [1, 0], network_resets := 1 }

def c3Logs : List TurnLog :=
  [{ features := [0, 0, 0, 0], action_id := 1, mask := [1, 1] },
   { features := [0, 0, 0, 1], action_id := 0, mask := [1, 1] }]

/-- Witness for C3 on a concrete two-turn dialog with ground-truth actions
`a1` then `a0`. -/
theorem c3_teacher_forcing_witness :
    (((reset c3Cfg c3S0).prev_action = List.replicate c3Cfg.nActions 0 ∧
      ∀ tr0, (c3Cs.zip c3Rs).get? 0 = some tr0 →
        ∀ lg0, c3Logs.get? 0 = some lg0 →
        lg0.features =
          (_encode_context c3Cfg (reset c3Cfg c3S0) tr0.1.text tr0.1.db_result).1) ∧
    (∀ s1 text db, ∃ front,
        (_encode_context c3Cfg s1 text db).1 = front ++ s1.prev_action) ∧
    (∀ k tr1, (c3Cs.zip c3Rs).get? (k + 1) = some tr1 →
        ∃ sk1 lgk lgk1,
          runTurns c3Cfg (reset c3Cfg c3S0) ((c3Cs.zip c3Rs).take (k + 1)) =
            some (sk1, c3Logs.take (k + 1)) ∧
          c3Logs.get? k = some lgk ∧
          c3Logs.get? (k + 1) = some lgk1 ∧
          sk1.prev_action = oneHot c3Cfg.nActions lgk.action_id ∧
          lgk1.features =
            (_encode_context c3Cfg sk1 tr1.1.text tr1.1.db_result).1)) :=
  c3_teacher_forcing c3Cfg c3S0 c3Cs c3Rs c3Se c3Logs (by decide)

end GoBot
